import Mathlib

/-
Verification of the URL-shortener service (`index.js`, final revision: the one
with bounded code-generation retry, 2048-character URL length cap, batch cap of
50, short-code format validation and fire-and-forget access counting).

Shallow embedding conventions:
  * the SQLite table `urls` is a `Store`: a list of rows plus the AUTOINCREMENT
    counter; the two UNIQUE constraints (`original_url`, `short_code`) are
    enforced by `insert`, which returns `none` to model SQLITE_CONSTRAINT
    (the spec's ConflictError);
  * `nanoid.nanoid(CODE_LENGTH)` is modelled by a caller-supplied stream
    `gen : Nat → String` of candidate codes consumed left to right (randomness
    is external to the program);
  * the WHATWG `new URL(...)` validity check is modelled by a caller-supplied
    predicate `validUrl : String → Bool` (the URL parser is platform code, not
    part of this repository);
  * JavaScript `String.prototype.trim` is modelled by `jsTrim` over the ASCII
    whitespace characters;
  * `await` points (each `db.get` / `db.run`) are the atomic steps of the
    concurrent semantics given further below.
-/

namespace UrlShortener

/-- Configuration constants of `index.js` (default values). -/
def CODE_LENGTH : Nat := 6

def maxAttempts : Nat := 10

def MAX_BATCH_SIZE : Nat := 50

def BASE_DOMAIN : String := "http://localhost:3444"

/-- A row of the `urls` table. -/
structure UrlMapping where
  id : Nat
  originalUrl : String
  shortCode : String
  createdAt : Nat
  accessCount : Nat
deriving Repr, DecidableEq

/-- The `urls` table: rows in insertion order plus the AUTOINCREMENT counter. -/
structure Store where
  rows : List UrlMapping
  nextId : Nat
deriving Repr, DecidableEq

def emptyStore : Store := { rows := [], nextId := 0 }

/-- `SELECT ... FROM urls WHERE original_url = ?` (first matching row). -/
def findByUrl (u : String) (s : Store) : Option UrlMapping :=
  s.rows.find? (fun r => r.originalUrl == u)

/-- `SELECT ... FROM urls WHERE short_code = ?` (first matching row). -/
def findByCode (c : String) (s : Store) : Option UrlMapping :=
  s.rows.find? (fun r => r.shortCode == c)

/-- `SELECT 1 FROM urls WHERE short_code = ?` viewed as a boolean. -/
def codeExists (s : Store) (c : String) : Bool :=
  (findByCode c s).isSome

/-- `INSERT INTO urls (original_url, short_code) VALUES (?, ?)`.
`none` models the SQLITE_CONSTRAINT failure raised when either UNIQUE
constraint (`original_url` or `short_code`) is violated. -/
def insert (u c : String) (now : Nat) (s : Store) : Option Store :=
  if s.rows.any (fun r => r.originalUrl == u) || s.rows.any (fun r => r.shortCode == c) then
    none
  else
    some { rows := s.rows ++ [⟨s.nextId, u, c, now, 0⟩], nextId := s.nextId + 1 }

/-- `UPDATE urls SET access_count = access_count + 1 WHERE short_code = ?`. -/
def incrementAccess (c : String) (s : Store) : Store :=
  { s with
    rows := s.rows.map (fun r =>
      if r.shortCode == c then { r with accessCount := r.accessCount + 1 } else r) }

/-- ASCII whitespace recognised by JavaScript `String.prototype.trim`. -/
def isJsSpace (c : Char) : Bool :=
  c == ' ' || c == '\t' || c == '\n' || c == '\r' || c == '\x0b' || c == '\x0c'

/-- JavaScript `originalUrl.trim()`: strip leading and trailing whitespace. -/
def jsTrim (s : String) : String :=
  String.mk (((s.data.dropWhile isJsSpace).reverse.dropWhile isJsSpace).reverse)

/-- A character matched by the JavaScript regex class `[\w-]`,
i.e. `[A-Za-z0-9_-]`. -/
def isCodeChar (c : Char) : Bool :=
  c.isAlpha || c.isDigit || c == '_' || c == '-'

/-- The code-format guard of the `/:code` and `/api/stats/:code` handlers:
`if (!code || code.length > 20 || /[^\w-]/.test(code)) reject`. -/
def codeFormatOk (code : String) : Bool :=
  if code = "" then false
  else if code.length > 20 then false
  else if code.data.any (fun c => !(isCodeChar c)) then false
  else true

/-- A character of the default nanoid alphabet (`A-Za-z0-9_-`, 64 symbols). -/
def isNanoidChar (c : Char) : Bool :=
  c.isAlpha || c.isDigit || c == '_' || c == '-'

/-- A string `nanoid.nanoid(CODE_LENGTH)` can return: 6 characters drawn from
the nanoid alphabet. -/
def isNanoidCode (c : String) : Bool :=
  c.length == CODE_LENGTH && c.data.all isNanoidChar

/-- The retry loop of `generateUniqueCode`:
`while (exists && attempts < maxAttempts) { code = generateCode(); exists = ...; attempts++ }`.
The loop counter is represented downward: `remaining = maxAttempts - attempts`,
so the guard `attempts < maxAttempts` becomes `remaining ≠ 0` and the recursion
is structural. Returns the final `code`, the next unconsumed generator index,
and the final `remaining`. -/
def genWhile (gen : Nat → String) (s : Store) : String → Nat → Nat → String × Nat × Nat
  | code, idx, 0 => (code, idx, 0)
  | code, idx, remaining + 1 =>
    if codeExists s code then genWhile gen s (gen idx) (idx + 1) remaining
    else (code, idx, remaining + 1)

/-- The allocation failure `throw new Error('Failed to generate a unique code
after multiple attempts')` (the spec's AllocationExhausted). -/
inductive AllocErr where
  | exhausted
deriving Repr, DecidableEq

/-- `generateUniqueCode()`: draw codes from `gen` starting at index `idx` until
one is absent from the store or the attempt budget is gone. The final test
`if (attempts >= maxAttempts) throw` is `remaining = 0` here. On success
returns the fresh code and the next unconsumed generator index. -/
def generateUniqueCode (gen : Nat → String) (s : Store) (idx : Nat) :
    Except AllocErr (String × Nat) :=
  match genWhile gen s (gen idx) (idx + 1) maxAttempts with
  | (code, idx2, remaining) => if remaining = 0 then .error .exhausted else .ok (code, idx2)

/-- Number of `generateCode()` invocations a `generateUniqueCode` run performs:
one initial call plus one per executed loop iteration. -/
def genAttemptCount (gen : Nat → String) (s : Store) (idx : Nat) : Nat :=
  1 + (maxAttempts - (genWhile gen s (gen idx) (idx + 1) maxAttempts).2.2)

/-- The value `processSingleUrl` resolves with: either `{ error, originalUrl? }`
or `{ originalUrl, shortUrl, shortCode }`. -/
inductive UrlResult where
  | failure (error : String) (originalUrl : Option String)
  | success (originalUrl shortUrl shortCode : String)
deriving Repr, DecidableEq

def shortUrlOf (code : String) : String :=
  BASE_DOMAIN ++ "/" ++ code

/-- `processSingleUrl(originalUrl)` (final revision). Parameters beyond the
source: `validUrl` models `new URL(...)` succeeding, `gen`/`idx` the nanoid
stream, `now` the row timestamp. The `insert` conflict branch is the
`catch (error) { return { error: 'Internal Server Error', originalUrl } }`
handler; sequentially it is unreachable, under interleaving it is not (see the
concurrent semantics below). -/
def processSingleUrl (validUrl : String → Bool) (gen : Nat → String) (now : Nat)
    (url : String) (s : Store) (idx : Nat) : UrlResult × Store × Nat :=
  if url = "" then (.failure "URL is required" none, s, idx)
  else if validUrl url = false then (.failure "Invalid URL format" (some url), s, idx)
  else if (jsTrim url).length > 2048 then
    (.failure "URL exceeds maximum length (2048 characters)" (some (jsTrim url)), s, idx)
  else
    match findByUrl (jsTrim url) s with
    | some row => (.success (jsTrim url) (shortUrlOf row.shortCode) row.shortCode, s, idx)
    | none =>
      match generateUniqueCode gen s idx with
      | .error _ => (.failure "Internal Server Error" (some (jsTrim url)), s, idx)
      | .ok (code, idx2) =>
        match insert (jsTrim url) code now s with
        | none => (.failure "Internal Server Error" (some (jsTrim url)), s, idx2)
        | some s2 => (.success (jsTrim url) (shortUrlOf code) code, s2, idx2)

/-- Response of the `GET /:code` redirect handler. -/
inductive RedirectResponse where
  | badRequest (message : String)
  | redirect (location : String)
  | notFound (message : String)
deriving Repr, DecidableEq

/-- `GET /:code`. `incOk` tells whether the fire-and-forget
`UPDATE ... access_count + 1` (whose promise rejection is swallowed by
`.catch`) succeeds; the response is computed before and independently of it. -/
def redirectHandler (code : String) (incOk : Bool) (s : Store) :
    RedirectResponse × Store :=
  if codeFormatOk code = false then (.badRequest "Invalid short code format", s)
  else
    match findByCode code s with
    | some row =>
      (.redirect row.originalUrl, if incOk then incrementAccess code s else s)
    | none => (.notFound "Short URL not found", s)

/-- Response of the `GET /api/stats/:code` handler. -/
inductive StatsResponse where
  | badRequest (message : String)
  | ok (originalUrl shortCode : String) (createdAt accessCount : Nat)
  | notFound (message : String)
deriving Repr, DecidableEq

/-- `GET /api/stats/:code`. -/
def statsHandler (code : String) (s : Store) : StatsResponse :=
  if codeFormatOk code = false then .badRequest "Invalid short code format"
  else
    match findByCode code s with
    | some row => .ok row.originalUrl row.shortCode row.createdAt row.accessCount
    | none => .notFound "Short URL not found"

/-- The per-item loop of `POST /api/shorten/batch`: each URL goes through
`processSingleUrl`, results kept in input order, store and generator stream
threaded through. The source walks the list in chunks of 10 via `Promise.all`;
with each `processSingleUrl` modelled as a unit this chunked traversal is the
plain left-to-right traversal. -/
def processUrls (validUrl : String → Bool) (gen : Nat → String) (now : Nat) :
    List String → Store → Nat → List UrlResult × Store × Nat
  | [], s, idx => ([], s, idx)
  | url :: rest, s, idx =>
    let r := processSingleUrl validUrl gen now url s idx
    let rs := processUrls validUrl gen now rest r.2.1 r.2.2
    (r.1 :: rs.1, rs.2.1, rs.2.2)

/-- Response of the `POST /api/shorten/batch` handler. -/
inductive BatchResponse where
  | badRequest (message : String)
  | ok (results : List UrlResult)
deriving Repr, DecidableEq

/-- `POST /api/shorten/batch` on a JSON array of strings: empty arrays and
arrays above `MAX_BATCH_SIZE` are rejected before any processing. -/
def batchHandler (validUrl : String → Bool) (gen : Nat → String) (now : Nat)
    (urls : List String) (s : Store) (idx : Nat) : BatchResponse × Store × Nat :=
  if urls.length = 0 then (.badRequest "At least one URL is required", s, idx)
  else if urls.length > MAX_BATCH_SIZE then
    (.badRequest "Maximum batch size is 50 URLs", s, idx)
  else
    let r := processUrls validUrl gen now urls s idx
    (.ok r.1, r.2.1, r.2.2)

/-! ### Concurrent semantics of the allocation protocol

`processSingleUrl` suspends at each awaited database operation
(`db.get` by URL, `db.get` by code, `db.run` INSERT); the single SQLite
connection serialises those operations, so a concurrent execution is an
interleaving of these atomic steps. A `Thread` is one in-flight
`processSingleUrl` call for an already validated and trimmed URL, carrying its
own stream of nanoid draws; a schedule is the list of thread indices in the
order the event loop resumes them. -/

/-- Program counter of one in-flight `processSingleUrl` call, positioned at its
next awaited database operation. `checkCode` carries the pending candidate,
the next generator index and the downward loop counter of `genWhile`. -/
inductive Phase where
  | lookupUrl
  | checkCode (code : String) (idx : Nat) (remaining : Nat)
  | insertRow (code : String)
  | finished (res : UrlResult)

/-- One in-flight `processSingleUrl` call (URL already validated and trimmed). -/
structure Thread where
  url : String
  gen : Nat → String
  phase : Phase

structure Config where
  store : Store
  threads : List Thread

/-- Execute the thread's next atomic database operation against the store.
  * `lookupUrl`: the `SELECT ... WHERE original_url = ?`; a hit resolves with
    the existing code, a miss synchronously draws the first candidate and
    suspends at its existence check;
  * `checkCode`: the `SELECT 1 ... WHERE short_code = ?` of the retry loop of
    `generateUniqueCode` (guard `exists && attempts < maxAttempts`, then
    `if (attempts >= maxAttempts) throw`, the thrown error being caught as an
    Internal Server Error result);
  * `insertRow`: the `INSERT`; a constraint violation is caught by the
    `catch` block and resolves with an Internal Server Error result — there is
    no re-query of the store by URL;
  * `finished`: the promise has resolved; nothing more happens. -/
def stepThread (now : Nat) (t : Thread) (s : Store) : Thread × Store :=
  match t.phase with
  | .lookupUrl =>
    match findByUrl t.url s with
    | some row =>
      ({ t with phase := .finished (.success t.url (shortUrlOf row.shortCode) row.shortCode) }, s)
    | none => ({ t with phase := .checkCode (t.gen 0) 1 maxAttempts }, s)
  | .checkCode code idx remaining =>
    if codeExists s code then
      match remaining with
      | 0 => ({ t with phase := .finished (.failure "Internal Server Error" (some t.url)) }, s)
      | r + 1 => ({ t with phase := .checkCode (t.gen idx) (idx + 1) r }, s)
    else
      if remaining = 0 then
        ({ t with phase := .finished (.failure "Internal Server Error" (some t.url)) }, s)
      else ({ t with phase := .insertRow code }, s)
  | .insertRow code =>
    match insert t.url code now s with
    | some s2 => ({ t with phase := .finished (.success t.url (shortUrlOf code) code) }, s2)
    | none => ({ t with phase := .finished (.failure "Internal Server Error" (some t.url)) }, s)
  | .finished _ => (t, s)

/-- Resume thread `i` (out-of-range indices resume nothing). -/
def stepConfig (now : Nat) (cfg : Config) (i : Nat) : Config :=
  match cfg.threads[i]? with
  | none => cfg
  | some t =>
    let r := stepThread now t cfg.store
    { store := r.2, threads := cfg.threads.set i r.1 }

/-- Run a schedule: resume the listed threads in order. -/
def run (now : Nat) (cfg : Config) : List Nat → Config
  | [] => cfg
  | i :: rest => run now (stepConfig now cfg i) rest

/-- The response a phase has resolved with, if it is a final phase. -/
def phaseResponse : Phase → Option UrlResult
  | .finished r => some r
  | _ => none

/-- The response thread `i` has resolved with, if it has finished. -/
def threadResult (cfg : Config) (i : Nat) : Option UrlResult :=
  (cfg.threads[i]?).bind (fun t => phaseResponse t.phase)

/-! ### Store invariants -/

/-- The UNIQUE constraint on `original_url`: no two rows share a URL. -/
def urlsNodup (s : Store) : Prop :=
  (s.rows.map UrlMapping.originalUrl).Nodup

/-- The UNIQUE constraint on `short_code`: no two rows share a code. -/
def codesNodup (s : Store) : Prop :=
  (s.rows.map UrlMapping.shortCode).Nodup

/-- Number of rows whose `original_url` is `u`. -/
def countUrl (u : String) (s : Store) : Nat :=
  (s.rows.filter (fun r => r.originalUrl == u)).length

/-- Access count of the row the store resolves `code` to. -/
def accessCountOf (code : String) (s : Store) : Option Nat :=
  (findByCode code s).map UrlMapping.accessCount

/-- `k` redirect lookups of `code` in a row, each with the fire-and-forget
access-count update succeeding. -/
def resolveK (code : String) : Nat → Store → Store
  | 0, s => s
  | k + 1, s => resolveK code k (redirectHandler code true s).2

/-! ### Helper lemmas about the store -/

theorem findByUrl_eq_some {u : String} {s : Store} {row : UrlMapping}
    (h : findByUrl u s = some row) : row.originalUrl = u ∧ row ∈ s.rows := by
  refine ⟨?_, List.mem_of_find?_eq_some h⟩
  have := List.find?_some h
  simpa using this

theorem findByUrl_eq_none {u : String} {s : Store}
    (h : findByUrl u s = none) : ∀ r ∈ s.rows, r.originalUrl ≠ u := by
  intro r hr
  have := (List.find?_eq_none).1 h r hr
  simpa using this

theorem findByCode_eq_some {c : String} {s : Store} {row : UrlMapping}
    (h : findByCode c s = some row) : row.shortCode = c ∧ row ∈ s.rows := by
  refine ⟨?_, List.mem_of_find?_eq_some h⟩
  have := List.find?_some h
  simpa using this

theorem findByCode_eq_none {c : String} {s : Store}
    (h : findByCode c s = none) : ∀ r ∈ s.rows, r.shortCode ≠ c := by
  intro r hr
  have := (List.find?_eq_none).1 h r hr
  simpa using this

/-- In a duplicate-free list, `find?` locates any member by its key. -/
theorem find?_eq_of_mem_of_nodup {l : List UrlMapping} {f : UrlMapping → String}
    (hnd : (l.map f).Nodup) {row : UrlMapping} (hmem : row ∈ l) :
    l.find? (fun r => f r == f row) = some row := by
  induction l with
  | nil => cases hmem
  | cons a t ih =>
    rcases List.mem_cons.1 hmem with rfl | hmem'
    · simp [List.find?_cons_of_pos]
    · have hne : f a ≠ f row := by
        intro he
        have : f row ∈ t.map f := List.mem_map_of_mem f hmem'
        rw [← he] at this
        exact (List.nodup_cons.1 hnd).1 this
      rw [List.find?_cons_of_neg _ (by simpa using hne)]
      exact ih (List.nodup_cons.1 hnd).2 hmem'

theorem findByCode_of_mem {s : Store} (hnd : codesNodup s) {row : UrlMapping}
    (hmem : row ∈ s.rows) : findByCode row.shortCode s = some row :=
  find?_eq_of_mem_of_nodup hnd hmem

theorem findByUrl_of_mem {s : Store} (hnd : urlsNodup s) {row : UrlMapping}
    (hmem : row ∈ s.rows) : findByUrl row.originalUrl s = some row :=
  find?_eq_of_mem_of_nodup hnd hmem

/-- In a duplicate-free list at most one element has a given key. -/
theorem filter_key_length_le_one {l : List UrlMapping} {f : UrlMapping → String}
    (hnd : (l.map f).Nodup) (c : String) :
    (l.filter (fun r => f r == c)).length ≤ 1 := by
  induction l with
  | nil => simp
  | cons a t ih =>
    have hnd' := List.nodup_cons.1 hnd
    by_cases ha : f a = c
    · have : t.filter (fun r => f r == c) = [] := by
        rw [List.filter_eq_nil_iff]
        intro r hr hc
        exact hnd'.1 (ha ▸ (by simpa using hc : f r = c) ▸ List.mem_map_of_mem f hr)
      simp [List.filter_cons, ha, this]
    · simpa [List.filter_cons, ha] using ih hnd'.2

theorem countUrl_le_one (s : Store) (hnd : urlsNodup s) (u : String) :
    countUrl u s ≤ 1 :=
  filter_key_length_le_one hnd u

theorem countUrl_eq_zero {u : String} {s : Store}
    (h : findByUrl u s = none) : countUrl u s = 0 := by
  have hall := findByUrl_eq_none h
  unfold countUrl
  rw [List.filter_eq_nil_iff.2 (fun r hr hc => hall r hr (by simpa using hc))]
  rfl

theorem countUrl_eq_one {u : String} {s : Store} {row : UrlMapping}
    (hnd : urlsNodup s) (h : findByUrl u s = some row) : countUrl u s = 1 := by
  have hkey := (findByUrl_eq_some h).1
  have hmem := (findByUrl_eq_some h).2
  have hle := countUrl_le_one s hnd u
  have hpos : 0 < countUrl u s := by
    have : row ∈ s.rows.filter (fun r => r.originalUrl == u) :=
      List.mem_filter.2 ⟨hmem, by simpa using hkey⟩
    have := List.length_pos.2 (List.ne_nil_of_mem this)
    simpa [countUrl] using this
  omega

/-! ### Helper lemmas about `insert` -/

theorem insert_eq_some {u c : String} {now : Nat} {s s' : Store}
    (h : insert u c now s = some s') :
    s' = { rows := s.rows ++ [⟨s.nextId, u, c, now, 0⟩], nextId := s.nextId + 1 } ∧
      (∀ r ∈ s.rows, r.originalUrl ≠ u) ∧ (∀ r ∈ s.rows, r.shortCode ≠ c) := by
  unfold insert at h
  split at h
  · exact absurd h (by simp)
  · next hcond =>
    rw [Bool.or_eq_true, not_or] at hcond
    refine ⟨by injection h with h2; exact h2.symm, ?_, ?_⟩
    · intro r hr he
      exact hcond.1 (List.any_eq_true.2 ⟨r, hr, by simpa using he⟩)
    · intro r hr he
      exact hcond.2 (List.any_eq_true.2 ⟨r, hr, by simpa using he⟩)

theorem insert_eq_none {u c : String} {now : Nat} {s : Store} {row : UrlMapping}
    (hmem : row ∈ s.rows) (hu : row.originalUrl = u) : insert u c now s = none := by
  unfold insert
  have : s.rows.any (fun r => r.originalUrl == u) = true :=
    List.any_eq_true.2 ⟨row, hmem, by simpa using hu⟩
  simp [this]

theorem urlsNodup_insert {u c : String} {now : Nat} {s s' : Store}
    (hnd : urlsNodup s) (h : insert u c now s = some s') : urlsNodup s' := by
  obtain ⟨rfl, hu, _⟩ := insert_eq_some h
  unfold urlsNodup at hnd ⊢
  rw [List.map_append]
  refine List.Nodup.append hnd (by simp) ?_
  intro x hx hx'
  simp only [List.map_cons, List.map_nil, List.mem_singleton] at hx'
  obtain ⟨r, hr, rfl⟩ := List.mem_map.1 hx
  exact hu r hr hx'

theorem codesNodup_insert {u c : String} {now : Nat} {s s' : Store}
    (hnd : codesNodup s) (h : insert u c now s = some s') : codesNodup s' := by
  obtain ⟨rfl, _, hc⟩ := insert_eq_some h
  unfold codesNodup at hnd ⊢
  rw [List.map_append]
  refine List.Nodup.append hnd (by simp) ?_
  intro x hx hx'
  simp only [List.map_cons, List.map_nil, List.mem_singleton] at hx'
  obtain ⟨r, hr, rfl⟩ := List.mem_map.1 hx
  exact hc r hr hx'

theorem urlsNodup_incrementAccess {c : String} {s : Store}
    (hnd : urlsNodup s) : urlsNodup (incrementAccess c s) := by
  unfold urlsNodup at hnd ⊢
  unfold incrementAccess
  rw [List.map_map]
  have : (UrlMapping.originalUrl ∘ fun r =>
      if r.shortCode == c then { r with accessCount := r.accessCount + 1 } else r)
      = UrlMapping.originalUrl := by
    funext r
    by_cases h : r.shortCode = c <;> simp [h]
  rw [this]
  exact hnd

theorem codesNodup_incrementAccess {c : String} {s : Store}
    (hnd : codesNodup s) : codesNodup (incrementAccess c s) := by
  unfold codesNodup at hnd ⊢
  unfold incrementAccess
  rw [List.map_map]
  have : (UrlMapping.shortCode ∘ fun r =>
      if r.shortCode == c then { r with accessCount := r.accessCount + 1 } else r)
      = UrlMapping.shortCode := by
    funext r
    by_cases h : r.shortCode = c <;> simp [h]
  rw [this]
  exact hnd

/-! ### Helper lemmas about the retry loop -/

/-- If every candidate drawn during the budget collides, the loop spends its
whole budget: it draws `f` further candidates and stops with `remaining = 0`,
holding the `(f+1)`-st candidate — whether or not that last one collides. -/
theorem genWhile_all_collide (gen : Nat → String) (s : Store) :
    ∀ f i, (∀ j, j < f → codeExists s (gen (i + j)) = true) →
      genWhile gen s (gen i) (i + 1) f = (gen (i + f), i + f + 1, 0) := by
  intro f
  induction f with
  | zero => intro i _; simp [genWhile]
  | succ f ih =>
    intro i hc
    have h0 : codeExists s (gen i) = true := by simpa using hc 0 (Nat.succ_pos f)
    have step : genWhile gen s (gen i) (i + 1) (f + 1)
        = genWhile gen s (gen (i + 1)) (i + 1 + 1) f := by
      simp [genWhile, h0]
    rw [step]
    have hc' : ∀ j, j < f → codeExists s (gen (i + 1 + j)) = true := by
      intro j hj
      have := hc (j + 1) (by omega)
      simpa [Nat.add_assoc, Nat.add_comm 1 j] using this
    rw [ih (i + 1) hc']
    have e1 : i + 1 + f = i + (f + 1) := by omega
    rw [e1]

/-- If the `(k+1)`-st candidate is the first fresh one and the budget is not
yet gone, the loop stops there with `remaining = f - k`. -/
theorem genWhile_first_fresh (gen : Nat → String) (s : Store) :
    ∀ k f i, k < f → (∀ j, j < k → codeExists s (gen (i + j)) = true) →
      codeExists s (gen (i + k)) = false →
      genWhile gen s (gen i) (i + 1) f = (gen (i + k), i + k + 1, f - k) := by
  intro k
  induction k with
  | zero =>
    intro f i hf _ hfresh
    obtain ⟨f', rfl⟩ : ∃ f', f = f' + 1 := ⟨f - 1, by omega⟩
    simp only [Nat.add_zero] at hfresh
    simp [genWhile, hfresh]
  | succ k ih =>
    intro f i hf hc hfresh
    obtain ⟨f', rfl⟩ : ∃ f', f = f' + 1 := ⟨f - 1, by omega⟩
    have h0 : codeExists s (gen i) = true := by simpa using hc 0 (Nat.succ_pos k)
    have step : genWhile gen s (gen i) (i + 1) (f' + 1)
        = genWhile gen s (gen (i + 1)) (i + 1 + 1) f' := by
      simp [genWhile, h0]
    rw [step]
    have hc' : ∀ j, j < k → codeExists s (gen (i + 1 + j)) = true := by
      intro j hj
      have := hc (j + 1) (by omega)
      simpa [Nat.add_assoc, Nat.add_comm 1 j] using this
    have hfresh' : codeExists s (gen (i + 1 + k)) = false := by
      have e : i + 1 + k = i + (k + 1) := by omega
      rw [e]; exact hfresh
    rw [ih f' (i + 1) (by omega) hc' hfresh']
    have e1 : i + 1 + k = i + (k + 1) := by omega
    have e2 : f' - k = f' + 1 - (k + 1) := by omega
    rw [e1, e2]

/-- The code the loop ends with is always one of the generator's draws. -/
theorem genWhile_code_is_drawn (gen : Nat → String) (s : Store) :
    ∀ f code idx, (genWhile gen s code idx f).1 = code ∨
      ∃ j, (genWhile gen s code idx f).1 = gen j := by
  intro f
  induction f with
  | zero => intro code idx; left; rfl
  | succ f ih =>
    intro code idx
    by_cases h : codeExists s code = true
    · have step : genWhile gen s code idx (f + 1) = genWhile gen s (gen idx) (idx + 1) f := by
        simp [genWhile, h]
      rw [step]
      rcases ih (gen idx) (idx + 1) with h' | ⟨j, h'⟩
      · exact Or.inr ⟨idx, h'⟩
      · exact Or.inr ⟨j, h'⟩
    · left
      simp [genWhile, h]

/-- With the first `maxAttempts` draws all colliding, `generateUniqueCode`
fails with AllocationExhausted after 11 generation attempts — the final, 11th
candidate is discarded without being used even when it does not collide. -/
theorem generateUniqueCode_exhausted {gen : Nat → String} {s : Store} {idx : Nat}
    (hc : ∀ j, j < maxAttempts → codeExists s (gen (idx + j)) = true) :
    generateUniqueCode gen s idx = .error .exhausted ∧ genAttemptCount gen s idx = 11 := by
  have h := genWhile_all_collide gen s maxAttempts idx hc
  constructor
  · unfold generateUniqueCode
    rw [h]
    rfl
  · unfold genAttemptCount
    rw [h]
    rfl

/-- If the `(k+1)`-st draw (`k < maxAttempts`) is the first non-colliding one,
`generateUniqueCode` succeeds with it after exactly `k + 1` generation
attempts. -/
theorem generateUniqueCode_success {gen : Nat → String} {s : Store} {idx k : Nat}
    (hk : k < maxAttempts) (hc : ∀ j, j < k → codeExists s (gen (idx + j)) = true)
    (hfresh : codeExists s (gen (idx + k)) = false) :
    generateUniqueCode gen s idx = .ok (gen (idx + k), idx + k + 1) ∧
      genAttemptCount gen s idx = k + 1 := by
  have h := genWhile_first_fresh gen s k maxAttempts idx hk hc hfresh
  constructor
  · unfold generateUniqueCode
    rw [h]
    have : ¬ (maxAttempts - k = 0) := by unfold maxAttempts at hk ⊢; omega
    simp [this]
  · unfold genAttemptCount
    rw [h]
    have e : (gen (idx + k), idx + k + 1, maxAttempts - k).2.2 = maxAttempts - k := rfl
    rw [e]
    unfold maxAttempts at hk ⊢
    omega

/-- When the loop stops with budget left, the final code does not collide. -/
theorem genWhile_stop_fresh (gen : Nat → String) (s : Store) :
    ∀ f code idx, (genWhile gen s code idx f).2.2 ≠ 0 →
      codeExists s (genWhile gen s code idx f).1 = false := by
  intro f
  induction f with
  | zero => intro code idx h; simp [genWhile] at h
  | succ f ih =>
    intro code idx h
    by_cases hc : codeExists s code = true
    · have step : genWhile gen s code idx (f + 1)
          = genWhile gen s (gen idx) (idx + 1) f := by simp [genWhile, hc]
      rw [step] at h ⊢
      exact ih _ _ h
    · have step : genWhile gen s code idx (f + 1) = (code, idx, f + 1) := by
        simp [genWhile, hc]
      rw [step]
      simpa using hc

/-- Any code `generateUniqueCode` returns is one of the generator's draws. -/
theorem generateUniqueCode_ok_is_drawn {gen : Nat → String} {s : Store} {idx : Nat}
    {code : String} {idx2 : Nat}
    (h : generateUniqueCode gen s idx = .ok (code, idx2)) : ∃ j, code = gen j := by
  have hg := genWhile_code_is_drawn gen s maxAttempts (gen idx) (idx + 1)
  unfold generateUniqueCode at h
  revert h hg
  generalize genWhile gen s (gen idx) (idx + 1) maxAttempts = r
  obtain ⟨c1, i1, r1⟩ := r
  intro h hg
  change (if r1 = 0 then Except.error AllocErr.exhausted
    else Except.ok (c1, i1)) = Except.ok (code, idx2) at h
  split at h
  · cases h
  · injection h with h2
    injection h2 with h3 h4
    subst h3
    rcases hg with hg | ⟨j, hg⟩
    · exact ⟨idx, hg⟩
    · exact ⟨j, hg⟩

/-- A code `generateUniqueCode` returns is absent from the store it ran on. -/
theorem generateUniqueCode_ok_fresh {gen : Nat → String} {s : Store} {idx : Nat}
    {code : String} {idx2 : Nat}
    (h : generateUniqueCode gen s idx = .ok (code, idx2)) :
    codeExists s code = false := by
  have hf := genWhile_stop_fresh gen s maxAttempts (gen idx) (idx + 1)
  unfold generateUniqueCode at h
  revert h hf
  generalize genWhile gen s (gen idx) (idx + 1) maxAttempts = r
  obtain ⟨c1, i1, r1⟩ := r
  intro h hf
  change (if r1 = 0 then Except.error AllocErr.exhausted
    else Except.ok (c1, i1)) = Except.ok (code, idx2) at h
  split at h
  · cases h
  · next hne =>
    injection h with h2
    injection h2 with h3 h4
    subst h3
    exact hf hne

/-! ### Helper lemmas about `processSingleUrl` -/

/-- Anatomy of a successful `processSingleUrl` call: the input passed all three
validation checks, the reported URL is the trimmed input, the short URL is
built from the code, and the code came either from an existing row found by
URL or from a fresh insert of a generated code. -/
theorem processSingleUrl_success {validUrl : String → Bool} {gen : Nat → String}
    {now : Nat} {url : String} {s : Store} {idx : Nat}
    {ou su c : String} {s1 : Store} {idx1 : Nat}
    (h : processSingleUrl validUrl gen now url s idx = (.success ou su c, s1, idx1)) :
    url ≠ "" ∧ validUrl url = true ∧ (jsTrim url).length ≤ 2048 ∧
      ou = jsTrim url ∧ su = shortUrlOf c ∧
      ((∃ row, findByUrl (jsTrim url) s = some row ∧ c = row.shortCode ∧
          s1 = s ∧ idx1 = idx) ∨
        (findByUrl (jsTrim url) s = none ∧
          generateUniqueCode gen s idx = .ok (c, idx1) ∧
          insert (jsTrim url) c now s = some s1)) := by
  unfold processSingleUrl at h
  split at h
  · cases h
  · next hurl =>
    split at h
    · cases h
    · next hvalid =>
      split at h
      · cases h
      · next hlen =>
        refine ⟨hurl, by simpa using hvalid, by omega, ?_⟩
        split at h
        · next row hrow =>
          injection h with h2 h3
          injection h2 with e1 e2 e3
          subst e1; subst e2; subst e3
          injection h3 with h4 h5
          exact ⟨rfl, rfl, Or.inl ⟨row, hrow, rfl, h4.symm, h5.symm⟩⟩
        · next hrow =>
          split at h
          · cases h
          · next code idx2 hgen =>
            split at h
            · cases h
            · next s2 hins =>
              injection h with h2 h3
              injection h2 with e1 e2 e3
              subst e1; subst e2; subst e3
              injection h3 with h4 h5
              subst h4; subst h5
              exact ⟨rfl, rfl, Or.inr ⟨hrow, hgen, hins⟩⟩

/-- A nonempty input failing URL validation is reported as an invalid-format
error and leaves the store and the generator stream untouched. -/
theorem processSingleUrl_invalid {validUrl : String → Bool} {gen : Nat → String}
    {now : Nat} {url : String} {s : Store} {idx : Nat}
    (hurl : url ≠ "") (hvalid : validUrl url = false) :
    processSingleUrl validUrl gen now url s idx
      = (.failure "Invalid URL format" (some url), s, idx) := by
  unfold processSingleUrl
  rw [if_neg hurl, if_pos hvalid]

theorem findByUrl_insert_self {u c : String} {now : Nat} {s s1 : Store}
    (h : insert u c now s = some s1) :
    findByUrl u s1 = some ⟨s.nextId, u, c, now, 0⟩ := by
  obtain ⟨rfl, hu, _⟩ := insert_eq_some h
  unfold findByUrl
  rw [List.find?_append]
  have h1 : s.rows.find? (fun r => r.originalUrl == u) = none :=
    List.find?_eq_none.2 (fun r hr => by simpa using hu r hr)
  rw [h1]
  simp

theorem findByCode_insert_self {u c : String} {now : Nat} {s s1 : Store}
    (h : insert u c now s = some s1) :
    findByCode c s1 = some ⟨s.nextId, u, c, now, 0⟩ := by
  obtain ⟨rfl, _, hc⟩ := insert_eq_some h
  unfold findByCode
  rw [List.find?_append]
  have h1 : s.rows.find? (fun r => r.shortCode == c) = none :=
    List.find?_eq_none.2 (fun r hr => by simpa using hc r hr)
  rw [h1]
  simp

theorem countUrl_insert_self {u c : String} {now : Nat} {s s1 : Store}
    (h : insert u c now s = some s1) : countUrl u s1 = countUrl u s + 1 := by
  obtain ⟨rfl, _, _⟩ := insert_eq_some h
  unfold countUrl
  rw [List.filter_append]
  simp

/-- The existing-mapping fast path of `processSingleUrl`. -/
theorem processSingleUrl_found {validUrl : String → Bool} {gen : Nat → String}
    {now : Nat} {url : String} {s : Store} {idx : Nat} {row : UrlMapping}
    (hurl : url ≠ "") (hvalid : validUrl url = true)
    (hlen : (jsTrim url).length ≤ 2048)
    (hrow : findByUrl (jsTrim url) s = some row) :
    processSingleUrl validUrl gen now url s idx
      = (.success (jsTrim url) (shortUrlOf row.shortCode) row.shortCode, s, idx) := by
  unfold processSingleUrl
  rw [if_neg hurl, if_neg (by simp [hvalid]), if_neg (by omega), hrow]

/-! ### Helper lemmas about the batch loop -/

theorem processUrls_length (validUrl : String → Bool) (gen : Nat → String) (now : Nat) :
    ∀ (urls : List String) (s : Store) (idx : Nat),
      (processUrls validUrl gen now urls s idx).1.length = urls.length := by
  intro urls
  induction urls with
  | nil => intro s idx; rfl
  | cons u rest ih =>
    intro s idx
    unfold processUrls
    simpa using ih _ _

theorem processUrls_append (validUrl : String → Bool) (gen : Nat → String) (now : Nat) :
    ∀ (xs ys : List String) (s : Store) (idx : Nat),
      processUrls validUrl gen now (xs ++ ys) s idx
        = ((processUrls validUrl gen now xs s idx).1
            ++ (processUrls validUrl gen now ys
                (processUrls validUrl gen now xs s idx).2.1
                (processUrls validUrl gen now xs s idx).2.2).1,
           (processUrls validUrl gen now ys
                (processUrls validUrl gen now xs s idx).2.1
                (processUrls validUrl gen now xs s idx).2.2).2) := by
  intro xs
  induction xs with
  | nil => intro ys s idx; rfl
  | cons x rest ih =>
    intro ys s idx
    simp only [List.cons_append, processUrls, List.append_eq]
    rw [ih]

/-! ### Helper lemmas about redirect lookups and access counting -/

/-- Incrementing `code` bumps exactly the row the lookup resolves `code` to. -/
theorem findByCode_incrementAccess (c : String) (s : Store) :
    findByCode c (incrementAccess c s)
      = (findByCode c s).map
          (fun r => { r with accessCount := r.accessCount + 1 }) := by
  unfold findByCode incrementAccess
  induction s.rows with
  | nil => rfl
  | cons a t ih =>
    by_cases ha : a.shortCode = c
    · simp [List.find?_cons_of_pos, ha]
    · have hb : (a.shortCode == c) = false := by simpa using ha
      simp only [List.map_cons]
      rw [hb]
      simp only [Bool.false_eq_true, if_false]
      rw [List.find?_cons_of_neg _ (by simpa using ha),
        List.find?_cons_of_neg _ (by simpa using ha)]
      exact ih

/-- After `k` redirect lookups whose fire-and-forget updates all succeed, the
access count of a present code has grown by exactly `k`. -/
theorem accessCountOf_resolveK {code : String} (hfmt : codeFormatOk code = true) :
    ∀ (k : Nat) (s : Store) (row : UrlMapping), findByCode code s = some row →
      accessCountOf code (resolveK code k s) = some (row.accessCount + k) := by
  intro k
  induction k with
  | zero =>
    intro s row hrow
    unfold resolveK accessCountOf
    rw [hrow]
    rfl
  | succ k ih =>
    intro s row hrow
    unfold resolveK
    have hstep : (redirectHandler code true s).2 = incrementAccess code s := by
      unfold redirectHandler
      rw [if_neg (by simp [hfmt]), hrow]
      rfl
    rw [hstep]
    have hrow' : findByCode code (incrementAccess code s)
        = some { row with accessCount := row.accessCount + 1 } := by
      rw [findByCode_incrementAccess, hrow]
      rfl
    rw [ih (incrementAccess code s) _ hrow']
    have : row.accessCount + 1 + k = row.accessCount + (k + 1) := by omega
    rw [this]

/-! ### Invariant preservation in the concurrent semantics -/

/-- The store only ever changes through a successful `insert`. -/
theorem stepThread_store_cases (now : Nat) (t : Thread) (s : Store) :
    (stepThread now t s).2 = s ∨
      ∃ code s2, insert t.url code now s = some s2 ∧ (stepThread now t s).2 = s2 := by
  unfold stepThread
  rcases t.phase with _ | ⟨code, idx, remaining⟩ | code | res
  · rcases findByUrl t.url s with _ | row
    · left; rfl
    · left; rfl
  · by_cases hex : codeExists s code = true
    · rcases remaining with _ | r
      · left; simp [hex]
      · left; simp [hex]
    · by_cases hr : remaining = 0
      · left; simp [hex, hr]
      · left; simp [hex, hr]
  · rcases hins : insert t.url code now s with _ | s2
    · left; simp [hins]
    · right; exact ⟨code, s2, hins, by simp [hins]⟩
  · left; rfl

/-- One atomic step of a thread keeps both uniqueness constraints intact. -/
theorem stepThread_inv {now : Nat} {t : Thread} {s : Store}
    (hu : urlsNodup s) (hc : codesNodup s) :
    urlsNodup (stepThread now t s).2 ∧ codesNodup (stepThread now t s).2 := by
  rcases stepThread_store_cases now t s with h | ⟨code, s2, hins, h⟩
  · rw [h]; exact ⟨hu, hc⟩
  · rw [h]; exact ⟨urlsNodup_insert hu hins, codesNodup_insert hc hins⟩

theorem stepConfig_inv {now : Nat} {cfg : Config} {i : Nat}
    (hu : urlsNodup cfg.store) (hc : codesNodup cfg.store) :
    urlsNodup (stepConfig now cfg i).store ∧ codesNodup (stepConfig now cfg i).store := by
  unfold stepConfig
  rcases ht : cfg.threads[i]? with _ | t
  · exact ⟨hu, hc⟩
  · exact stepThread_inv hu hc

theorem run_inv {now : Nat} :
    ∀ (sched : List Nat) (cfg : Config), urlsNodup cfg.store → codesNodup cfg.store →
      urlsNodup (run now cfg sched).store ∧ codesNodup (run now cfg sched).store := by
  intro sched
  induction sched with
  | nil => intro cfg hu hc; exact ⟨hu, hc⟩
  | cons i rest ih =>
    intro cfg hu hc
    unfold run
    have h := @stepConfig_inv now cfg i hu hc
    exact ih _ h.1 h.2

/-! ### A finished thread's response never changes -/

theorem threadResult_eq_some {cfg : Config} {i : Nat} {r : UrlResult} :
    threadResult cfg i = some r ↔
      ∃ t, cfg.threads[i]? = some t ∧ t.phase = .finished r := by
  unfold threadResult
  rcases ht : cfg.threads[i]? with _ | t
  · simp
  · simp only [Option.some_bind']
    constructor
    · intro h
      refine ⟨t, rfl, ?_⟩
      rcases hq : t.phase with _ | _ | _ | res
      all_goals rw [hq] at h
      · cases h
      · cases h
      · cases h
      · unfold phaseResponse at h
        injection h with h2
        rw [h2]
    · rintro ⟨t', ht', hp⟩
      injection ht' with ht'
      subst ht'
      rw [hp]
      rfl

theorem stepConfig_preserves_finished {now : Nat} {cfg : Config} {i : Nat}
    {r : UrlResult} (h : threadResult cfg i = some r) (j : Nat) :
    threadResult (stepConfig now cfg j) i = some r := by
  obtain ⟨t, ht, hp⟩ := threadResult_eq_some.1 h
  refine threadResult_eq_some.2 ?_
  unfold stepConfig
  rcases htj : cfg.threads[j]? with _ | tj
  · exact ⟨t, ht, hp⟩
  · by_cases hij : i = j
    · subst hij
      rw [ht] at htj
      injection htj with htj
      subst htj
      have hlen : i < cfg.threads.length := by
        by_contra hge
        rw [List.getElem?_eq_none (by omega)] at ht
        cases ht
      refine ⟨t, ?_, hp⟩
      have hstep : (stepThread now t cfg.store).1 = t := by
        unfold stepThread
        rw [hp]
      simp only [List.getElem?_set_self hlen, hstep]
    · refine ⟨t, ?_, hp⟩
      have : j ≠ i := fun he => hij he.symm
      simp only [List.getElem?_set_ne this]
      exact ht

theorem run_preserves_finished {now : Nat} :
    ∀ (sched : List Nat) (cfg : Config) (i : Nat) (r : UrlResult),
      threadResult cfg i = some r → threadResult (run now cfg sched) i = some r := by
  intro sched
  induction sched with
  | nil => intro cfg i r h; exact h
  | cons j rest ih =>
    intro cfg i r h
    unfold run
    exact ih _ _ _ (stepConfig_preserves_finished h j)

/-! ### Handler evaluation helpers -/

theorem redirectHandler_found {code : String} {inc : Bool} {s : Store} {row : UrlMapping}
    (hfmt : codeFormatOk code = true) (hrow : findByCode code s = some row) :
    (redirectHandler code inc s).1 = .redirect row.originalUrl := by
  unfold redirectHandler
  rw [if_neg (by simp [hfmt]), hrow]

theorem redirectHandler_miss {code : String} {inc : Bool} {s : Store}
    (hfmt : codeFormatOk code = true) (hrow : findByCode code s = none) :
    redirectHandler code inc s = (.notFound "Short URL not found", s) := by
  unfold redirectHandler
  rw [if_neg (by simp [hfmt]), hrow]

theorem statsHandler_found {code : String} {s : Store} {row : UrlMapping}
    (hfmt : codeFormatOk code = true) (hrow : findByCode code s = some row) :
    statsHandler code s = .ok row.originalUrl row.shortCode row.createdAt row.accessCount := by
  unfold statsHandler
  rw [if_neg (by simp [hfmt]), hrow]

theorem statsHandler_miss {code : String} {s : Store}
    (hfmt : codeFormatOk code = true) (hrow : findByCode code s = none) :
    statsHandler code s = .notFound "Short URL not found" := by
  unfold statsHandler
  rw [if_neg (by simp [hfmt]), hrow]

/-- The validation failures of `processSingleUrl` (the spec's InvalidInput
class), as opposed to allocation or storage failures. -/
def isInvalidInput : UrlResult → Bool
  | .failure e _ => e == "URL is required" || e == "Invalid URL format"
      || e == "URL exceeds maximum length (2048 characters)"
  | .success _ _ _ => false

theorem codeFormatOk_iff (c : String) :
    codeFormatOk c = true ↔
      c ≠ "" ∧ c.length ≤ 20 ∧ ∀ ch ∈ c.data, isCodeChar ch = true := by
  unfold codeFormatOk
  by_cases h0 : c = ""
  · simp [h0]
  · rw [if_neg h0]
    by_cases h1 : c.length > 20
    · simp [h1, h0]
    · rw [if_neg h1]
      by_cases h2 : c.data.any (fun ch => !(isCodeChar ch)) = true

      · rw [if_pos h2]
        simp only [List.any_eq_true] at h2
        obtain ⟨ch, hch, hbad⟩ := h2
        constructor
        · intro h; cases h
        · rintro ⟨-, -, hall⟩
          rw [hall ch hch] at hbad
          cases hbad
      · rw [if_neg h2]
        simp only [List.any_eq_true, not_exists] at h2
        push_neg at h2
        refine ⟨fun _ => ⟨h0, by omega, ?_⟩, fun _ => rfl⟩
        intro ch hch
        have := h2 ch hch
        simpa using this

theorem nanoid_codeFormatOk {c : String} (h : isNanoidCode c = true) :
    codeFormatOk c = true := by
  unfold isNanoidCode at h
  rw [Bool.and_eq_true] at h
  have hlen : c.length = CODE_LENGTH := by simpa using h.1
  refine (codeFormatOk_iff c).2 ⟨?_, ?_, ?_⟩
  · intro he
    rw [he] at hlen
    cases hlen
  · rw [hlen]
    decide
  · intro ch hch
    have := List.all_eq_true.1 h.2 ch hch
    unfold isNanoidChar at this
    unfold isCodeChar
    exact this

/-! ### The claims -/

/-- Claim C6: a URL whose trimmed length is exactly 2048 characters passes
validation (it is not rejected with any InvalidInput-class error), a trimmed
length of 2049 is rejected with the length error, and an input failing the
`new URL` parse is rejected as invalid; all three checked by
`processSingleUrl`. -/
theorem c6_lengthBoundary :
    (∀ (validUrl : String → Bool) (gen : Nat → String) (now : Nat) (url : String)
        (s : Store) (idx : Nat),
      url ≠ "" → validUrl url = true → (jsTrim url).length = 2048 →
      isInvalidInput (processSingleUrl validUrl gen now url s idx).1 = false) ∧
    (∀ (validUrl : String → Bool) (gen : Nat → String) (now : Nat) (url : String)
        (s : Store) (idx : Nat),
      validUrl url = true → (jsTrim url).length = 2049 →
      (processSingleUrl validUrl gen now url s idx).1
        = .failure "URL exceeds maximum length (2048 characters)" (some (jsTrim url))) ∧
    (∀ (validUrl : String → Bool) (gen : Nat → String) (now : Nat) (url : String)
        (s : Store) (idx : Nat),
      url ≠ "" → validUrl url = false →
      (processSingleUrl validUrl gen now url s idx).1
        = .failure "Invalid URL format" (some url)) := by
  refine ⟨?_, ?_, ?_⟩
  · intro validUrl gen now url s idx hurl hvalid hlen
    unfold processSingleUrl
    rw [if_neg hurl, if_neg (by simp [hvalid]), if_neg (by omega)]
    rcases hfind : findByUrl (jsTrim url) s with _ | row
    · rcases hgen : generateUniqueCode gen s idx with e | ⟨code, idx2⟩
      · simp [hfind, hgen, isInvalidInput]
      · rcases hins : insert (jsTrim url) code now s with _ | s2
        · simp [hfind, hgen, hins, isInvalidInput]
        · simp [hfind, hgen, hins, isInvalidInput]
    · simp [hfind, isInvalidInput]
  · intro validUrl gen now url s idx hvalid hlen
    have hurl : url ≠ "" := by
      intro he
      rw [he] at hlen
      cases hlen
    unfold processSingleUrl
    rw [if_neg hurl, if_neg (by simp [hvalid]), if_pos (by omega)]
  · intro validUrl gen now url s idx hurl hvalid
    rw [processSingleUrl_invalid hurl hvalid]

theorem jsTrim_replicate (n : Nat) :
    jsTrim (String.mk (List.replicate n 'a')) = String.mk (List.replicate n 'a') := by
  unfold jsTrim
  simp [List.dropWhile_replicate, isJsSpace]

/-- Claim C6 witness at a concrete 2048/2049-character input. -/
theorem c6_lengthBoundary_witness :
    isInvalidInput ((processSingleUrl (fun _ => true) (fun _ => "abc123") 0
        (String.mk (List.replicate 2048 'a')) emptyStore 0).1) = false ∧
    (processSingleUrl (fun _ => true) (fun _ => "abc123") 0
        (String.mk (List.replicate 2049 'a')) emptyStore 0).1
      = .failure "URL exceeds maximum length (2048 characters)"
          (some (jsTrim (String.mk (List.replicate 2049 'a')))) ∧
    (processSingleUrl (fun _ => false) (fun _ => "abc123") 0 "not-a-url" emptyStore 0).1
      = .failure "Invalid URL format" (some "not-a-url") :=
  ⟨c6_lengthBoundary.1 (fun _ => true) (fun _ => "abc123") 0 _ emptyStore 0
      (by decide) rfl (by rw [jsTrim_replicate, String.length_mk, List.length_replicate]),
    c6_lengthBoundary.2.1 (fun _ => true) (fun _ => "abc123") 0 _ emptyStore 0
      rfl (by rw [jsTrim_replicate, String.length_mk, List.length_replicate]),
    c6_lengthBoundary.2.2 (fun _ => false) (fun _ => "abc123") 0 _ emptyStore 0
      (by decide) rfl⟩

/-- Claim C8: the redirect response is computed independently of the
fire-and-forget access-count update (a failing increment cannot change it);
when the code resolves, the response is the redirect to the stored original
URL whatever the increment's outcome; and `k` lookups whose updates succeed
raise the access count by exactly `k` — so a counter starting at 0 reaches at
least `k`. -/
theorem c8_accessCounting :
    (∀ (code : String) (inc : Bool) (s : Store),
      (redirectHandler code inc s).1 = (redirectHandler code true s).1) ∧
    (∀ (code : String) (inc : Bool) (s : Store) (row : UrlMapping),
      codeFormatOk code = true → findByCode code s = some row →
      (redirectHandler code inc s).1 = .redirect row.originalUrl) ∧
    (∀ (code : String) (k : Nat) (s : Store) (row : UrlMapping),
      codeFormatOk code = true → findByCode code s = some row →
      accessCountOf code (resolveK code k s) = some (row.accessCount + k)) := by
  refine ⟨?_, ?_, ?_⟩
  · intro code inc s
    unfold redirectHandler
    by_cases hfmt : codeFormatOk code = false
    · rw [if_pos hfmt, if_pos hfmt]
    · rw [if_neg hfmt, if_neg hfmt]
      rcases hrow : findByCode code s with _ | row
      · rfl
      · rfl
  · intro code inc s row hfmt hrow
    exact redirectHandler_found hfmt hrow
  · intro code k s row hfmt hrow
    exact accessCountOf_resolveK hfmt k s row hrow

/-- Claim C8 witness: a store holding one row with code `abc123` and access
count 0; the response ignores the increment flag, resolves to a redirect, and
two successful lookups bring the counter to 2. -/
theorem c8_accessCounting_witness :
    (redirectHandler "abc123" false
        { rows := [⟨0, "https://e.x/a", "abc123", 0, 0⟩], nextId := 1 }).1
      = (redirectHandler "abc123" true
        { rows := [⟨0, "https://e.x/a", "abc123", 0, 0⟩], nextId := 1 }).1 ∧
    (redirectHandler "abc123" false
        { rows := [⟨0, "https://e.x/a", "abc123", 0, 0⟩], nextId := 1 }).1
      = .redirect "https://e.x/a" ∧
    accessCountOf "abc123"
        (resolveK "abc123" 2 { rows := [⟨0, "https://e.x/a", "abc123", 0, 0⟩], nextId := 1 })
      = some (0 + 2) :=
  ⟨c8_accessCounting.1 "abc123" false _,
    c8_accessCounting.2.1 "abc123" false _ ⟨0, "https://e.x/a", "abc123", 0, 0⟩
      (by decide) (by decide),
    c8_accessCounting.2.2 "abc123" 2 _ ⟨0, "https://e.x/a", "abc123", 0, 0⟩
      (by decide) (by decide)⟩

/-- Claim C9: for a well-formed code, the stats endpoint answers a hit with
exactly the row's `{originalUrl, shortCode, createdAt, accessCount}` and a
miss with the not-found response. -/
theorem c9_stats :
    (∀ (s : Store) (code : String) (row : UrlMapping),
      codeFormatOk code = true → findByCode code s = some row →
      statsHandler code s
        = .ok row.originalUrl row.shortCode row.createdAt row.accessCount) ∧
    (∀ (s : Store) (code : String),
      codeFormatOk code = true → findByCode code s = none →
      statsHandler code s = .notFound "Short URL not found") :=
  ⟨fun _ _ _ hfmt hrow => statsHandler_found hfmt hrow,
    fun _ _ hfmt hrow => statsHandler_miss hfmt hrow⟩

/-- Claim C9 witness: the concrete hit and miss. -/
theorem c9_stats_witness :
    statsHandler "abc123" { rows := [⟨0, "https://e.x/a", "abc123", 0, 7⟩], nextId := 1 }
      = .ok "https://e.x/a" "abc123" 0 7 ∧
    statsHandler "zzzzzz" { rows := [⟨0, "https://e.x/a", "abc123", 0, 7⟩], nextId := 1 }
      = .notFound "Short URL not found" :=
  ⟨c9_stats.1 _ "abc123" ⟨0, "https://e.x/a", "abc123", 0, 7⟩ (by decide) (by decide),
    c9_stats.2 _ "zzzzzz" (by decide) (by decide)⟩

/-- Claim C10: every nanoid-shaped code (6 characters over `A-Za-z0-9_-`)
passes the handlers' format guard; the guard accepts exactly the nonempty
strings of at most 20 such characters; a well-formed but absent code — of any
admitted length, not only 6 — reaches the lookup and yields the not-found
response in both handlers; and any code a successful allocation returns passes
the guard, provided the generator emits nanoid-shaped codes and the store
holds only such codes. -/
theorem c10_codeFormat :
    (∀ c : String, isNanoidCode c = true → codeFormatOk c = true) ∧
    (∀ c : String, codeFormatOk c = true ↔
      (c ≠ "" ∧ c.length ≤ 20 ∧ ∀ ch ∈ c.data, isCodeChar ch = true)) ∧
    (∀ (c : String) (s : Store) (inc : Bool),
      codeFormatOk c = true → findByCode c s = none →
      (redirectHandler c inc s).1 = .notFound "Short URL not found" ∧
        statsHandler c s = .notFound "Short URL not found") ∧
    (∀ (validUrl : String → Bool) (gen : Nat → String) (now : Nat) (url : String)
        (s : Store) (idx : Nat) (ou su c : String) (s1 : Store) (idx1 : Nat),
      (∀ n, isNanoidCode (gen n) = true) →
      (∀ r ∈ s.rows, isNanoidCode r.shortCode = true) →
      processSingleUrl validUrl gen now url s idx = (.success ou su c, s1, idx1) →
      codeFormatOk c = true) := by
  refine ⟨fun c => nanoid_codeFormatOk, codeFormatOk_iff, ?_, ?_⟩
  · intro c s inc hfmt hrow
    exact ⟨by rw [redirectHandler_miss hfmt hrow], statsHandler_miss hfmt hrow⟩
  · intro validUrl gen now url s idx ou su c s1 idx1 hgen hrows h
    obtain ⟨-, -, -, -, -, hcase⟩ := processSingleUrl_success h
    rcases hcase with ⟨row, hrow, rfl, -, -⟩ | ⟨-, hok, -⟩
    · exact nanoid_codeFormatOk (hrows row (findByUrl_eq_some hrow).2)
    · obtain ⟨j, rfl⟩ := generateUniqueCode_ok_is_drawn hok
      exact nanoid_codeFormatOk (hgen j)

/-- Claim C10 witness: the nanoid-shaped code `abc123` passes the guard; a
well-formed 3-character code passes the guard and, absent from the store,
falls through to a not-found in both handlers; a fresh allocation's code
passes the guard. -/
theorem c10_codeFormat_witness :
    codeFormatOk "abc123" = true ∧
    (codeFormatOk "ab" = true ↔
      ("ab" ≠ "" ∧ ("ab" : String).length ≤ 20 ∧ ∀ ch ∈ ("ab" : String).data, isCodeChar ch = true)) ∧
    ((redirectHandler "ab" true emptyStore).1 = .notFound "Short URL not found" ∧
      statsHandler "ab" emptyStore = .notFound "Short URL not found") ∧
    codeFormatOk "abc123" = true :=
  ⟨c10_codeFormat.1 "abc123" (by decide),
    c10_codeFormat.2.1 "ab",
    c10_codeFormat.2.2.1 "ab" emptyStore true (by decide) (by decide),
    c10_codeFormat.2.2.2 (fun _ => true) (fun _ => "abc123") 0 "https://e.x/a"
      emptyStore 0 "https://e.x/a" (shortUrlOf "abc123") "abc123"
      { rows := [⟨0, "https://e.x/a", "abc123", 0, 0⟩], nextId := 1 } 1
      (fun _ => show isNanoidCode "abc123" = true by decide)
      (by simp [emptyStore]) (by decide)⟩

/-- Claim C5: after a successful allocation the returned short code resolves,
through the redirect handler, to a mapping whose original URL is the trimmed
input — whether the allocation found an existing row or inserted a fresh one,
and whatever the outcome of the access-count update. Hypotheses: the store
satisfies its code-uniqueness constraint and holds only well-formed codes, and
the generator emits well-formed codes (nanoid draws always are). -/
theorem c5_roundTrip (validUrl : String → Bool) (gen : Nat → String) (now : Nat)
    (url : String) (s : Store) (idx : Nat) (ou su c : String) (s1 : Store)
    (idx1 : Nat) (inc : Bool)
    (hnd : codesNodup s)
    (hrows : ∀ r ∈ s.rows, codeFormatOk r.shortCode = true)
    (hgen : ∀ n, codeFormatOk (gen n) = true)
    (h : processSingleUrl validUrl gen now url s idx = (.success ou su c, s1, idx1)) :
    (redirectHandler c inc s1).1 = .redirect (jsTrim url) := by
  obtain ⟨-, -, -, -, -, hcase⟩ := processSingleUrl_success h
  rcases hcase with ⟨row, hrow, rfl, rfl, -⟩ | ⟨-, hok, hins⟩
  · have hmem := (findByUrl_eq_some hrow).2
    have hurl := (findByUrl_eq_some hrow).1
    have hfmt := hrows row hmem
    rw [redirectHandler_found hfmt (findByCode_of_mem hnd hmem), hurl]
  · have hfmt : codeFormatOk c = true := by
      obtain ⟨j, rfl⟩ := generateUniqueCode_ok_is_drawn hok
      exact hgen j
    rw [redirectHandler_found hfmt (findByCode_insert_self hins)]

/-- Claim C5 witness: allocate `https://e.x/a` into an empty store, then
resolve the returned code `abc123`. -/
theorem c5_roundTrip_witness :
    (redirectHandler "abc123" true
        { rows := [⟨0, "https://e.x/a", "abc123", 0, 0⟩], nextId := 1 }).1
      = .redirect (jsTrim "https://e.x/a") :=
  c5_roundTrip (fun _ => true) (fun _ => "abc123") 0 "https://e.x/a" emptyStore 0
    "https://e.x/a" (shortUrlOf "abc123") "abc123"
    { rows := [⟨0, "https://e.x/a", "abc123", 0, 0⟩], nextId := 1 } 1 true
    (by simp [codesNodup, emptyStore]) (by simp [emptyStore])
    (fun _ => show codeFormatOk "abc123" = true by decide) (by decide)

/-- A validation-failing item contributes its error object and hands the
store and generator stream on unchanged. -/
theorem processUrls_cons_invalid (validUrl : String → Bool) (gen : Nat → String)
    (now : Nat) (ys : List String) (bad : String) (s1 : Store) (i1 : Nat)
    (hbad : bad ≠ "") (hinvalid : validUrl bad = false) :
    processUrls validUrl gen now (bad :: ys) s1 i1
      = (.failure "Invalid URL format" (some bad)
          :: (processUrls validUrl gen now ys s1 i1).1,
         (processUrls validUrl gen now ys s1 i1).2) := by
  simp only [processUrls]
  rw [processSingleUrl_invalid hbad hinvalid]

/-- Claim C7: an accepted batch (nonempty, at most `MAX_BATCH_SIZE` URLs) is
answered with one result per input URL; and an item failing URL validation
contributes its own error object at its position while leaving the store, the
generator stream and therefore every other item's processing exactly as they
would have been — one bad URL aborts nothing. -/
theorem c7_batchIsolation :
    (∀ (validUrl : String → Bool) (gen : Nat → String) (now : Nat)
        (urls : List String) (s : Store) (idx : Nat),
      urls ≠ [] → urls.length ≤ MAX_BATCH_SIZE →
      (batchHandler validUrl gen now urls s idx).1
          = .ok (processUrls validUrl gen now urls s idx).1 ∧
        (processUrls validUrl gen now urls s idx).1.length = urls.length) ∧
    (∀ (validUrl : String → Bool) (gen : Nat → String) (now : Nat)
        (xs ys : List String) (bad : String) (s : Store) (idx : Nat),
      bad ≠ "" → validUrl bad = false →
      processUrls validUrl gen now (xs ++ bad :: ys) s idx
        = ((processUrls validUrl gen now xs s idx).1
            ++ .failure "Invalid URL format" (some bad)
              :: (processUrls validUrl gen now ys
                  (processUrls validUrl gen now xs s idx).2.1
                  (processUrls validUrl gen now xs s idx).2.2).1,
           (processUrls validUrl gen now ys
              (processUrls validUrl gen now xs s idx).2.1
              (processUrls validUrl gen now xs s idx).2.2).2)) := by
  constructor
  · intro validUrl gen now urls s idx hne hlen
    constructor
    · unfold batchHandler
      rw [if_neg (by simp [hne]), if_neg (by omega)]
    · exact processUrls_length validUrl gen now urls s idx
  · intro validUrl gen now xs ys bad s idx hbad hinvalid
    rw [processUrls_append,
      processUrls_cons_invalid validUrl gen now ys bad _ _ hbad hinvalid]

/-- Claim C7 witness: the spec's scenario `[valid, "not-a-url", valid]`: three
results in input order, the middle one carrying the error object, the other
two successful allocations. -/
theorem c7_batchIsolation_witness :
    ((batchHandler (fun u => u != "not-a-url") (fun n => if n = 0 then "abc123" else "xyz789")
        0 ["https://e.x/one", "not-a-url", "https://e.x/two"] emptyStore 0).1
      = .ok [.success "https://e.x/one" (shortUrlOf "abc123") "abc123",
          .failure "Invalid URL format" (some "not-a-url"),
          .success "https://e.x/two" (shortUrlOf "xyz789") "xyz789"] ∧
      (processUrls (fun u => u != "not-a-url") (fun n => if n = 0 then "abc123" else "xyz789")
        0 ["https://e.x/one", "not-a-url", "https://e.x/two"] emptyStore 0).1.length = 3) ∧
    processUrls (fun u => u != "not-a-url") (fun n => if n = 0 then "abc123" else "xyz789")
        0 (["https://e.x/one"] ++ "not-a-url" :: ["https://e.x/two"]) emptyStore 0
      = ((processUrls (fun u => u != "not-a-url") (fun n => if n = 0 then "abc123" else "xyz789")
            0 ["https://e.x/one"] emptyStore 0).1
          ++ .failure "Invalid URL format" (some "not-a-url")
            :: (processUrls (fun u => u != "not-a-url") (fun n => if n = 0 then "abc123" else "xyz789")
                0 ["https://e.x/two"]
                (processUrls (fun u => u != "not-a-url") (fun n => if n = 0 then "abc123" else "xyz789")
                  0 ["https://e.x/one"] emptyStore 0).2.1
                (processUrls (fun u => u != "not-a-url") (fun n => if n = 0 then "abc123" else "xyz789")
                  0 ["https://e.x/one"] emptyStore 0).2.2).1,
         (processUrls (fun u => u != "not-a-url") (fun n => if n = 0 then "abc123" else "xyz789")
            0 ["https://e.x/two"]
            (processUrls (fun u => u != "not-a-url") (fun n => if n = 0 then "abc123" else "xyz789")
              0 ["https://e.x/one"] emptyStore 0).2.1
            (processUrls (fun u => u != "not-a-url") (fun n => if n = 0 then "abc123" else "xyz789")
              0 ["https://e.x/one"] emptyStore 0).2.2).2) := by
  refine ⟨⟨?_, ?_⟩, ?_⟩
  · have h := (c7_batchIsolation.1 (fun u => u != "not-a-url")
      (fun n => if n = 0 then "abc123" else "xyz789") 0
      ["https://e.x/one", "not-a-url", "https://e.x/two"] emptyStore 0
      (by decide) (by decide)).1
    rw [h]
    rfl
  · exact (c7_batchIsolation.1 (fun u => u != "not-a-url")
      (fun n => if n = 0 then "abc123" else "xyz789") 0
      ["https://e.x/one", "not-a-url", "https://e.x/two"] emptyStore 0
      (by decide) (by decide)).2
  · exact c7_batchIsolation.2 (fun u => u != "not-a-url")
      (fun n => if n = 0 then "abc123" else "xyz789") 0
      ["https://e.x/one"] ["https://e.x/two"] "not-a-url" emptyStore 0
      (by decide) (by decide)

/-- Claim C2 counterexample. Take `u := "https://e.x/a "` (trailing space; the
WHATWG `new URL` constructor strips surrounding whitespace, so the input is a
valid URL — modelled by a `validUrl` accepting it). Two sequential calls do
return the same short code, but the stored mapping's `original_url` is the
trimmed string: the store afterwards contains no mapping whose `originalUrl`
is `u` itself, contradicting the claim's "exactly one mapping whose
originalUrl is u". -/
theorem c2_counterexample :
    (processSingleUrl (fun _ => true) (fun _ => "abc123") 0 "https://e.x/a "
        emptyStore 0).1
      = .success "https://e.x/a" (shortUrlOf "abc123") "abc123" ∧
    (processSingleUrl (fun _ => true) (fun _ => "abc123") 0 "https://e.x/a "
        (processSingleUrl (fun _ => true) (fun _ => "abc123") 0 "https://e.x/a "
          emptyStore 0).2.1
        (processSingleUrl (fun _ => true) (fun _ => "abc123") 0 "https://e.x/a "
          emptyStore 0).2.2).1
      = .success "https://e.x/a" (shortUrlOf "abc123") "abc123" ∧
    countUrl "https://e.x/a "
        (processSingleUrl (fun _ => true) (fun _ => "abc123") 0 "https://e.x/a "
          (processSingleUrl (fun _ => true) (fun _ => "abc123") 0 "https://e.x/a "
            emptyStore 0).2.1
          (processSingleUrl (fun _ => true) (fun _ => "abc123") 0 "https://e.x/a "
            emptyStore 0).2.2).2.1
      = 0 := by
  refine ⟨rfl, rfl, ?_⟩
  decide

/-- Claim C2 as amended: for every valid URL accepted by validation, if the
first call succeeds with code `c`, the second sequential call returns the very
same code `c` (and reports the trimmed URL), leaves the store untouched, and
the store then contains exactly one mapping whose `originalUrl` is the input
URL after trimming surrounding whitespace. -/
theorem c2_idempotent (validUrl : String → Bool) (gen : Nat → String)
    (now now2 : Nat) (url : String) (s : Store) (idx : Nat)
    (ou su c : String) (s1 : Store) (idx1 : Nat)
    (hnd : urlsNodup s)
    (h1 : processSingleUrl validUrl gen now url s idx = (.success ou su c, s1, idx1)) :
    (processSingleUrl validUrl gen now2 url s1 idx1).1
        = .success (jsTrim url) (shortUrlOf c) c ∧
      (processSingleUrl validUrl gen now2 url s1 idx1).2.1 = s1 ∧
      countUrl (jsTrim url) s1 = 1 := by
  obtain ⟨hurl, hvalid, hlen, -, -, hcase⟩ := processSingleUrl_success h1
  rcases hcase with ⟨row, hrow, rfl, rfl, -⟩ | ⟨hnone, hok, hins⟩
  · rw [processSingleUrl_found hurl hvalid hlen hrow]
    exact ⟨rfl, rfl, countUrl_eq_one hnd hrow⟩
  · have hfind : findByUrl (jsTrim url) s1 = some ⟨s.nextId, jsTrim url, c, now, 0⟩ :=
      findByUrl_insert_self hins
    rw [processSingleUrl_found hurl hvalid hlen hfind]
    refine ⟨rfl, rfl, ?_⟩
    rw [countUrl_insert_self hins, countUrl_eq_zero hnone]

/-- Claim C2 (amended) witness: allocate `https://e.x/a` twice from the empty
store; the second call repeats code `abc123`, changes nothing, and exactly one
row for the trimmed URL exists. -/
theorem c2_idempotent_witness :
    (processSingleUrl (fun _ => true) (fun _ => "abc123") 0 "https://e.x/a"
        { rows := [⟨0, "https://e.x/a", "abc123", 0, 0⟩], nextId := 1 } 1).1
        = .success (jsTrim "https://e.x/a") (shortUrlOf "abc123") "abc123" ∧
      (processSingleUrl (fun _ => true) (fun _ => "abc123") 0 "https://e.x/a"
        { rows := [⟨0, "https://e.x/a", "abc123", 0, 0⟩], nextId := 1 } 1).2.1
        = { rows := [⟨0, "https://e.x/a", "abc123", 0, 0⟩], nextId := 1 } ∧
      countUrl (jsTrim "https://e.x/a")
        { rows := [⟨0, "https://e.x/a", "abc123", 0, 0⟩], nextId := 1 } = 1 :=
  c2_idempotent (fun _ => true) (fun _ => "abc123") 0 0 "https://e.x/a"
    emptyStore 0 "https://e.x/a" (shortUrlOf "abc123") "abc123"
    { rows := [⟨0, "https://e.x/a", "abc123", 0, 0⟩], nextId := 1 } 1
    (by simp [urlsNodup, emptyStore]) (by decide)

/-- Claim C3 counterexample: with a generator that always collides (the store
holds `cccccc` and every draw is `cccccc`), allocation does fail with
AllocationExhausted, but only after 11 invocations of the code generator — the
initial draw plus the 10 retry iterations of the loop — not after exactly
10. -/
theorem c3_counterexample :
    generateUniqueCode (fun _ => "cccccc")
        { rows := [⟨0, "https://e.x/a", "cccccc", 0, 0⟩], nextId := 1 } 0
      = .error .exhausted ∧
    genAttemptCount (fun _ => "cccccc")
        { rows := [⟨0, "https://e.x/a", "cccccc", 0, 0⟩], nextId := 1 } 0 = 11 ∧
    genAttemptCount (fun _ => "cccccc")
        { rows := [⟨0, "https://e.x/a", "cccccc", 0, 0⟩], nextId := 1 } 0 ≠ 10 := by
  refine ⟨rfl, rfl, ?_⟩
  decide

/-- Claim C3 as amended: if the first `maxAttempts` (10) generated candidates
all collide, allocation fails with AllocationExhausted after exactly 11
generation attempts — never unboundedly, and regardless of whether the 11th
candidate would have been fresh, which makes the failure possible even though
a non-colliding code was produced; if instead some candidate among the first
10 is the first non-colliding one, allocation succeeds with exactly that
candidate, after exactly its attempt number of generations. -/
theorem c3_boundedRetry :
    (∀ (gen : Nat → String) (s : Store) (idx : Nat),
      (∀ j, j < maxAttempts → codeExists s (gen (idx + j)) = true) →
      generateUniqueCode gen s idx = .error .exhausted ∧
        genAttemptCount gen s idx = 11) ∧
    (∀ (gen : Nat → String) (s : Store) (idx k : Nat),
      k < maxAttempts → (∀ j, j < k → codeExists s (gen (idx + j)) = true) →
      codeExists s (gen (idx + k)) = false →
      generateUniqueCode gen s idx = .ok (gen (idx + k), idx + k + 1) ∧
        genAttemptCount gen s idx = k + 1) :=
  ⟨fun _ _ _ hc => generateUniqueCode_exhausted hc,
    fun _ _ _ _ hk hc hfresh => generateUniqueCode_success hk hc hfresh⟩

/-- Claim C3 (amended) witness: the always-colliding generator exhausts after
11 draws even though an 11th fresh candidate exists (the generator returns a
fresh code from index 10 on), and a generator whose third draw is the first
fresh one succeeds with it on the third attempt. -/
theorem c3_boundedRetry_witness :
    (generateUniqueCode (fun n => if n < 10 then "cccccc" else "dddddd")
        { rows := [⟨0, "https://e.x/a", "cccccc", 0, 0⟩], nextId := 1 } 0
        = .error .exhausted ∧
      genAttemptCount (fun n => if n < 10 then "cccccc" else "dddddd")
        { rows := [⟨0, "https://e.x/a", "cccccc", 0, 0⟩], nextId := 1 } 0 = 11) ∧
    (generateUniqueCode (fun n => if n < 2 then "cccccc" else "dddddd")
        { rows := [⟨0, "https://e.x/a", "cccccc", 0, 0⟩], nextId := 1 } 0
        = .ok ((fun n => if n < 2 then "cccccc" else "dddddd") (0 + 2), 0 + 2 + 1) ∧
      genAttemptCount (fun n => if n < 2 then "cccccc" else "dddddd")
        { rows := [⟨0, "https://e.x/a", "cccccc", 0, 0⟩], nextId := 1 } 0 = 2 + 1) :=
  ⟨c3_boundedRetry.1 (fun n => if n < 10 then "cccccc" else "dddddd")
      { rows := [⟨0, "https://e.x/a", "cccccc", 0, 0⟩], nextId := 1 } 0
      (by decide),
    c3_boundedRetry.2 (fun n => if n < 2 then "cccccc" else "dddddd")
      { rows := [⟨0, "https://e.x/a", "cccccc", 0, 0⟩], nextId := 1 } 0 2
      (by decide) (by decide) (by decide)⟩

/-- Two concurrent `processSingleUrl` callers for the same (validated,
trimmed) URL, each with its own stream of nanoid draws, over an empty store. -/
def twoCallerCfg : Config :=
  { store := emptyStore
    threads :=
      [ { url := "https://example.com/a", gen := fun _ => "aaaaaa", phase := .lookupUrl }
      , { url := "https://example.com/a", gen := fun _ => "bbbbbb", phase := .lookupUrl } ] }

/-- The racing schedule: both threads pass the lookup miss before either
inserts; thread 0 then wins the insert, thread 1 checks its (fresh) code and
loses the insert. -/
def raceSched : List Nat := [0, 1, 0, 0, 1, 1]

/-- Claim C1 counterexample: under the schedule `raceSched`, the two callers
do NOT converge to the same short code — thread 0 resolves with code `aaaaaa`
while thread 1, whose INSERT hits the `original_url` uniqueness constraint,
resolves with the caught-and-converted Internal Server Error object carrying
no short code at all. -/
theorem c1_counterexample :
    threadResult (run 0 twoCallerCfg raceSched) 0
        = some (.success "https://example.com/a" (shortUrlOf "aaaaaa") "aaaaaa") ∧
    threadResult (run 0 twoCallerCfg raceSched) 1
        = some (.failure "Internal Server Error" (some "https://example.com/a")) ∧
    threadResult (run 0 twoCallerCfg raceSched) 0
        ≠ threadResult (run 0 twoCallerCfg raceSched) 1 := by
  refine ⟨rfl, rfl, ?_⟩
  decide

/-- Claim C1 as amended: the row-uniqueness half of the claim does hold — in
every interleaving of any number of in-flight allocation calls, starting from
a store satisfying its two uniqueness constraints, at no point does the store
hold two mappings for the same `originalUrl` (at most one row for any URL is
ever created); but the callers' responses need not all carry that row's short
code — a caller losing the insert race receives an Internal Server Error
result instead (see the counterexample). -/
theorem c1_uniqueRow (now : Nat) (cfg : Config) (sched : List Nat) (u : String)
    (hu : urlsNodup cfg.store) (hc : codesNodup cfg.store) :
    countUrl u (run now cfg sched).store ≤ 1 :=
  countUrl_le_one _ (run_inv sched cfg hu hc).1 u

/-- Claim C1 (amended) witness: in the racing scenario at most one row for the
contested URL exists at the end. -/
theorem c1_uniqueRow_witness :
    countUrl "https://example.com/a" (run 0 twoCallerCfg raceSched).store ≤ 1 :=
  c1_uniqueRow 0 twoCallerCfg raceSched "https://example.com/a"
    (by simp [urlsNodup, twoCallerCfg, emptyStore])
    (by simp [codesNodup, twoCallerCfg, emptyStore])

/-- Claim C4 counterexample: in the racing scenario, thread 1's INSERT runs on
a store that already holds its URL (first conjunct: the insert it is about to
perform conflicts), the existing mapping carries code `aaaaaa`, yet thread 1's
final response is the generic Internal Server Error object — the protocol
does NOT fall back to re-querying by URL and does not return the existing
mapping's code. -/
theorem c4_counterexample :
    insert "https://example.com/a" "bbbbbb" 0
        (run 0 twoCallerCfg [0, 1, 0, 0, 1]).store = none ∧
    findByUrl "https://example.com/a" (run 0 twoCallerCfg raceSched).store
        = some ⟨0, "https://example.com/a", "aaaaaa", 0, 0⟩ ∧
    threadResult (run 0 twoCallerCfg raceSched) 1
        = some (.failure "Internal Server Error" (some "https://example.com/a")) ∧
    threadResult (run 0 twoCallerCfg raceSched) 1
        ≠ some (.success "https://example.com/a" (shortUrlOf "aaaaaa") "aaaaaa") := by
  refine ⟨rfl, rfl, rfl, ?_⟩
  decide

/-- Claim C4 as amended: when an allocation's INSERT fails against a
uniqueness constraint (the store's ConflictError), the `catch` block converts
it into the generic `{ error: 'Internal Server Error', originalUrl }` result
— that object, not the raw conflict and not the existing mapping's short
code, is what the caller receives, no matter how the remaining schedule
continues; there is no re-query of the store by URL. -/
theorem c4_conflictSwallowed (now : Nat) (cfg : Config) (sched : List Nat)
    (i : Nat) (t : Thread) (code : String)
    (ht : cfg.threads[i]? = some t) (hp : t.phase = .insertRow code)
    (hconf : insert t.url code now cfg.store = none) :
    threadResult (run now (stepConfig now cfg i) sched) i
      = some (.failure "Internal Server Error" (some t.url)) := by
  have hlen : i < cfg.threads.length := by
    by_contra hge
    rw [List.getElem?_eq_none (by omega)] at ht
    cases ht
  have hstep : (stepThread now t cfg.store).1.phase
      = Phase.finished (.failure "Internal Server Error" (some t.url)) := by
    unfold stepThread
    simp only [hp, hconf]
  refine run_preserves_finished sched _ i _ ?_
  refine threadResult_eq_some.2 ⟨(stepThread now t cfg.store).1, ?_, hstep⟩
  unfold stepConfig
  simp only [ht]
  simp only [List.getElem?_set_self hlen]

/-- A single in-flight call about to INSERT a URL the store already holds. -/
def conflictCfg : Config :=
  { store := { rows := [⟨0, "https://e.x/a", "cccccc", 0, 0⟩], nextId := 1 }
    threads := [{ url := "https://e.x/a", gen := fun _ => "dddddd", phase := .insertRow "dddddd" }] }

/-- Claim C4 (amended) witness: stepping the conflicting INSERT yields the
Internal Server Error response. -/
theorem c4_conflictSwallowed_witness :
    threadResult (run 0 (stepConfig 0 conflictCfg 0) []) 0
      = some (.failure "Internal Server Error" (some "https://e.x/a")) :=
  c4_conflictSwallowed 0 conflictCfg [] 0
    { url := "https://e.x/a", gen := fun _ => "dddddd", phase := .insertRow "dddddd" }
    "dddddd" rfl rfl (by decide)

end UrlShortener
